import Mathlib

/-!
Verification of the MindSpace scheduling and mood-analytics core.

The JavaScript source (appointments.js, utils.js, mood-tracker.js) is shallowly
embedded below.  Conventions of the embedding:

* Calendar dates are day numbers (`Nat`), with day 0 taken as a Sunday, so the
  source's weekday-name lookup `days[new Date(date).getDay()]` becomes an index
  into the same seven-name table at `date % 7`.
* Wall-clock times and the "HH:MM" slot strings of the source are represented
  by minutes since midnight (`Nat`); the zero-padded formatting used by the
  source is injective on minutes-of-day, so string equality of slots and
  appointment times coincides with equality of minutes.
* The combined instant `new Date(apt.date + ' ' + apt.time)` becomes
  `date * 1440 + time` (minutes), a strictly monotone encoding of (date, time).
* The external IndexedDB store is a snapshot list of records; `add` appends a
  record under a caller-supplied fresh key, `update` replaces the record whose
  key matches, mirroring a keyed object store.
* The external connection check `TherapistManager.isConnected` is passed in as
  a boolean, matching the spec's description of it as a read-only collaborator.
* `toFixed(1)` on a non-negative mean is modelled exactly: the mean scaled by
  ten and rounded half-up to an integer (JavaScript float arithmetic on these
  small decimals is idealised as exact decimal arithmetic).
-/

/-- Appointment status strings of the source ('confirmed' / 'completed' /
'cancelled'), the only three values the code ever assigns. -/
inductive Status where
  | confirmed
  | completed
  | cancelled
deriving DecidableEq, Repr

/-- An appointment record as created by `bookAppointment`. -/
structure Appt where
  id : Nat
  userId : Nat
  therapistId : Nat
  date : Nat
  time : Nat
  duration : Nat
  typeName : String
  status : Status
  notes : String
  createdAt : Nat
  cancelledAt : Option Nat
deriving DecidableEq, Repr

/-- A mood entry record as created by `logMood`. -/
structure MoodEntry where
  id : Nat
  userId : Nat
  date : Nat
  mood : String
  intensity : Nat
  notes : String
  timestamp : Nat
deriving DecidableEq, Repr

/-- The `moodData` argument of `logMood`. -/
structure MoodData where
  mood : String
  intensity : Nat
  notes : String
  date : Nat
deriving DecidableEq, Repr

/-- The `appointmentData` argument of `bookAppointment`; fields the caller may
omit (or pass a falsy value for) are `Option`s. -/
structure ApptData where
  therapistId : Nat
  date : Nat
  time : Nat
  duration : Option Nat
  typeName : Option String
  notes : Option String
deriving DecidableEq, Repr

/-- A therapist record as read by `getAvailableSlots`: its key and its weekly
availability (a set of weekday names). -/
structure Therapist where
  id : Nat
  availability : List String
deriving DecidableEq, Repr

/-- The `{success, message}` result object returned by the mutating
operations. -/
structure OpResult where
  success : Bool
  message : String
deriving DecidableEq, Repr

def emptyStr : String := ""

def notConnectedMsg : String := "You must be connected with this therapist first"

def slotTakenMsg : String := "This time slot is no longer available"

def bookedMsg : String := "Appointment booked successfully"

def notFoundMsg : String := "Appointment not found"

def alreadyCancelledMsg : String := "Appointment is already cancelled"

def cancelOkMsg : String := "Appointment cancelled successfully"

def invalidMoodMsg : String := "Invalid mood selected"

def intensityMsg : String := "Intensity must be between 1 and 10"

def moodUpdatedMsg : String := "Mood entry updated"

def moodLoggedMsg : String := "Mood logged successfully"

def regularSessionStr : String := "Regular Session"

def improvingStr : String := "improving"

def decliningStr : String := "declining"

def stableStr : String := "stable"

/-- `DateUtils.getDayOfWeek`: the weekday-name table of the source. -/
def dayNames : List String :=
  ["Sunday", "Monday", "Tuesday", "Wednesday", "Thursday", "Friday", "Saturday"]

/-- `DateUtils.getDayOfWeek(date)`, with dates as day numbers and day 0 a
Sunday. -/
def getDayOfWeek (date : Nat) : String :=
  dayNames.getD (date % 7) emptyStr

/-- The `while (currentTime + duration <= endTime)` loop of
`DateUtils.generateTimeSlots`, emitting each slot start and advancing by
`duration`.  The source diverges when `duration = 0`; the loop is only entered
here for positive `duration`. -/
def generateSlotsFrom (endTime duration : Nat) (cur : Nat) : List Nat :=
  if h : 0 < duration ∧ cur + duration ≤ endTime then
    cur :: generateSlotsFrom endTime duration (cur + duration)
  else
    []
termination_by endTime - cur
decreasing_by
  omega

/-- `DateUtils.generateTimeSlots(startHour, endHour, duration)`: slot starts
from `startHour:00`, stepping by `duration`, while the slot end fits at or
before `endHour:00`. -/
def generateTimeSlots (startHour endHour duration : Nat) : List Nat :=
  generateSlotsFrom (endHour * 60) duration (startHour * 60)

/-- The names of `MoodUtils.moodCategories`; `getMoodByName` succeeds exactly
on these. -/
def moodNames : List String :=
  ["Happy", "Sad", "Anxious", "Angry", "Calm", "Stressed", "Energetic",
   "Tired", "Hopeful", "Overwhelmed"]

/-- `MoodUtils.calculateAverage(moods)` scaled by ten: the source computes
`(sum / moods.length).toFixed(1)` (0 for an empty list), i.e. the mean rounded
half-up to one decimal; this returns that value in tenths, via
`(20*sum + n) / (2*n) = floor(10*sum/n + 1/2)`. -/
def calculateAverage10 (moods : List MoodEntry) : Nat :=
  if moods.length == 0 then 0
  else (20 * (moods.map (fun m => m.intensity)).sum + moods.length)
        / (2 * moods.length)

/-- `moods.slice(-7)`: the last (up to) seven entries. -/
def recentWindow (moods : List MoodEntry) : List MoodEntry :=
  moods.drop (moods.length - 7)

/-- `moods.slice(-14, -7)`: the (up to) seven entries preceding the last
seven. -/
def olderWindow (moods : List MoodEntry) : List MoodEntry :=
  (moods.drop (moods.length - 14)).take
    ((moods.length - 7) - (moods.length - 14))

/-- `MoodUtils.getMoodTrend(moods)`: `recent = moods.slice(-7)`,
`older = moods.slice(-14, -7)`; stable if fewer than 2 entries or `older`
empty; otherwise compares the one-decimal-rounded averages (the source
subtracts the `toFixed(1)` values), thresholds ±0.5, i.e. ±5 tenths. -/
def getMoodTrend (moods : List MoodEntry) : String :=
  if moods.length < 2 then stableStr
  else
    if (olderWindow moods).length == 0 then stableStr
    else
      let diff : Int :=
        (calculateAverage10 (recentWindow moods) : Int) -
          (calculateAverage10 (olderWindow moods) : Int)
      if 5 < diff then improvingStr
      else if diff < -5 then decliningStr
      else stableStr

/-- The exact (unrounded) mean intensity of a list of mood entries, used to
state what the spec calls "the mean intensity". -/
def meanQ (moods : List MoodEntry) : ℚ :=
  ((moods.map (fun m => m.intensity)).sum : ℚ) / (moods.length : ℚ)

/-- The start instant of an appointment,
`new Date(apt.date + ' ' + apt.time)`, in minutes. -/
def startInstant (a : Appt) : Nat :=
  a.date * 1440 + a.time

/-- `AppointmentManager.isSlotAvailable(therapistId, date, time)`: no
non-cancelled appointment of the therapist occupies exactly `(date, time)`. -/
def isSlotAvailable (db : List Appt) (therapistId date time : Nat) : Bool :=
  !(db.any (fun a => decide (a.therapistId = therapistId ∧ a.date = date ∧
      a.time = time ∧ a.status ≠ Status.cancelled)))

/-- `appointmentData.duration || 50` and friends: a missing or falsy (zero)
numeric field falls back to the default. -/
def natOrDefault (v : Option Nat) (d : Nat) : Nat :=
  match v with
  | none => d
  | some n => if n == 0 then d else n

/-- `appointmentData.type || 'Regular Session'` and friends: a missing or
falsy (empty) string field falls back to the default. -/
def strOrDefault (v : Option String) (d : String) : String :=
  match v with
  | none => d
  | some s => if s == emptyStr then d else s

/-- `AppointmentManager.bookAppointment(userId, appointmentData)`.  The
external `TherapistManager.isConnected` result is the `connected` argument;
`mindspaceDB.add` appends the new record under the fresh key `freshId`. -/
def bookAppointment (connected : Bool) (db : List Appt)
    (freshId now userId : Nat) (ad : ApptData) : OpResult × List Appt :=
  if !connected then ({ success := false, message := notConnectedMsg }, db)
  else if !(isSlotAvailable db ad.therapistId ad.date ad.time) then
    ({ success := false, message := slotTakenMsg }, db)
  else
    let appt : Appt :=
      { id := freshId
        userId := userId
        therapistId := ad.therapistId
        date := ad.date
        time := ad.time
        duration := natOrDefault ad.duration 50
        typeName := strOrDefault ad.typeName regularSessionStr
        status := Status.confirmed
        notes := strOrDefault ad.notes emptyStr
        createdAt := now
        cancelledAt := none }
    ({ success := true, message := bookedMsg }, db ++ [appt])

/-- `AppointmentManager.getAvailableSlots(therapistId, date, duration)`:
empty if the therapist is unknown or does not work on `dayOfWeek(date)`;
otherwise the generated 9–17 slots minus the times of the therapist's
non-cancelled appointments on that date. -/
def getAvailableSlots (db : List Appt) (therapist : Option Therapist)
    (date duration : Nat) : List Nat :=
  match therapist with
  | none => []
  | some t =>
    if !(t.availability.contains (getDayOfWeek date)) then []
    else
      let allSlots := generateTimeSlots 9 17 duration
      let dateAppointments :=
        (db.filter (fun a => decide (a.therapistId = t.id))).filter
          (fun a => decide (a.date = date ∧ a.status ≠ Status.cancelled))
      let bookedTimes := dateAppointments.map (fun a => a.time)
      allSlots.filter (fun slot => !(bookedTimes.contains slot))

/-- `AppointmentManager.getUpcomingAppointments(userId)`: the user's
appointments with a strictly future start instant and status confirmed,
sorted ascending by start instant. -/
def getUpcomingAppointments (now : Nat) (db : List Appt) (userId : Nat) :
    List Appt :=
  ((db.filter (fun a => decide (a.userId = userId))).filter
      (fun a => decide (now < startInstant a ∧ a.status = Status.confirmed))
    ).insertionSort (fun a b => startInstant a ≤ startInstant b)

/-- `AppointmentManager.getPastAppointments(userId)`: the user's appointments
with a past start instant or status completed, sorted descending. -/
def getPastAppointments (now : Nat) (db : List Appt) (userId : Nat) :
    List Appt :=
  ((db.filter (fun a => decide (a.userId = userId))).filter
      (fun a => decide (startInstant a < now ∨ a.status = Status.completed))
    ).insertionSort (fun a b => startInstant b ≤ startInstant a)

/-- `AppointmentManager.getCancelledAppointments(userId)`: the user's
appointments with status cancelled, sorted descending. -/
def getCancelledAppointments (now : Nat) (db : List Appt) (userId : Nat) :
    List Appt :=
  ((db.filter (fun a => decide (a.userId = userId))).filter
      (fun a => decide (a.status = Status.cancelled))
    ).insertionSort (fun a b => startInstant b ≤ startInstant a)

/-- `AppointmentManager.cancelAppointment(appointmentId)`:
`mindspaceDB.get` is a lookup by key, `mindspaceDB.update` replaces the
record whose key matches. -/
def cancelAppointment (db : List Appt) (now apptId : Nat) :
    OpResult × List Appt :=
  match db.find? (fun a => a.id == apptId) with
  | none => ({ success := false, message := notFoundMsg }, db)
  | some a =>
    if a.status == Status.cancelled then
      ({ success := false, message := alreadyCancelledMsg }, db)
    else
      let updated : Appt :=
        { a with
          status := Status.cancelled
          cancelledAt := some now }
      ({ success := true, message := cancelOkMsg },
       db.map (fun e => if e.id == a.id then updated else e))

/-- `AppointmentManager.getAppointmentsByDate(userId, date)`: the user's
appointments filtered to the given date. -/
def getAppointmentsByDate (db : List Appt) (userId date : Nat) : List Appt :=
  (db.filter (fun a => decide (a.userId = userId))).filter
    (fun a => decide (a.date = date))

/-- The loop body of `AppointmentManager.hasConflict(userId, date, time,
duration)`: skip cancelled appointments, conflict iff
`startTime < aptEnd && endTime > aptStart` on the combined instants. -/
def hasConflict (db : List Appt) (userId date time duration : Nat) : Bool :=
  (getAppointmentsByDate db userId date).any (fun a =>
    decide (a.status ≠ Status.cancelled ∧
      date * 1440 + time < startInstant a + a.duration ∧
      startInstant a < date * 1440 + time + duration))

/-- `hasConflict` including its `catch` clause: when fetching the user's
appointments fails (`none`), the check returns `true` ("Return true on error
to be safe"). -/
def hasConflictChecked (fetched : Option (List Appt))
    (userId date time duration : Nat) : Bool :=
  match fetched with
  | none => true
  | some db => hasConflict db userId date time duration

/-- `MoodTracker.getMoodsByDate(userId, date)`. -/
def getMoodsByDate (db : List MoodEntry) (userId date : Nat) :
    List MoodEntry :=
  db.filter (fun m => decide (m.userId = userId ∧ m.date = date))

/-- `MoodTracker.logMood(userId, moodData)`: validate the mood name and the
intensity range, then update the existing entry for `(userId, date)` if one
exists (replacement by key in the store), else insert a fresh record. -/
def logMood (db : List MoodEntry) (freshId now userId : Nat) (md : MoodData) :
    OpResult × List MoodEntry :=
  if !(moodNames.contains md.mood) then
    ({ success := false, message := invalidMoodMsg }, db)
  else if md.intensity < 1 || 10 < md.intensity then
    ({ success := false, message := intensityMsg }, db)
  else
    match getMoodsByDate db userId md.date with
    | existing :: _ =>
      let updated : MoodEntry :=
        { existing with
          mood := md.mood
          intensity := md.intensity
          notes := md.notes
          timestamp := now }
      ({ success := true, message := moodUpdatedMsg },
       db.map (fun e => if e.id == existing.id then updated else e))
    | [] =>
      let entry : MoodEntry :=
        { id := freshId, userId := userId, mood := md.mood,
          intensity := md.intensity, notes := md.notes, date := md.date,
          timestamp := now }
      ({ success := true, message := moodLoggedMsg }, db ++ [entry])

/-- The `for (const dateStr of dates)` loop of
`MoodTracker.calculateStreak`: `diffDays = today - moodDate`; count while
`diffDays === streak`, break otherwise.  The difference is taken over `Int`
as the source's day difference can be negative for a future-dated entry. -/
def streakLoop (today : Nat) : List Nat → Nat → Nat
  | [], streak => streak
  | d :: ds, streak =>
    if (today : Int) - (d : Int) = (streak : Int) then
      streakLoop today ds (streak + 1)
    else streak

/-- `MoodTracker.calculateStreak(moods)`: unique entry dates sorted
descending, then the walk from `today` backward. -/
def calculateStreak (today : Nat) (moods : List MoodEntry) : Nat :=
  if moods.length == 0 then 0
  else
    streakLoop today
      (((moods.map (fun m => m.date)).dedup).insertionSort
        (fun a b => b ≤ a)) 0

lemma map_id_of_mem {α : Type} (l : List α) (f : α → α)
    (h : ∀ a ∈ l, f a = a) : l.map f = l := by
  induction l with
  | nil => rfl
  | cons x xs ih =>
    simp only [List.map_cons, List.cons.injEq]
    exact ⟨h x (by simp), ih (fun a ha => h a (by simp [ha]))⟩

lemma mem_getUpcoming {now : Nat} {db : List Appt} {u : Nat} {a : Appt} :
    a ∈ getUpcomingAppointments now db u ↔
      a ∈ db ∧ a.userId = u ∧ now < startInstant a ∧
        a.status = Status.confirmed := by
  unfold getUpcomingAppointments
  rw [List.Perm.mem_iff (List.perm_insertionSort _ _)]
  simp only [List.mem_filter, decide_eq_true_eq]
  tauto

lemma mem_getPast {now : Nat} {db : List Appt} {u : Nat} {a : Appt} :
    a ∈ getPastAppointments now db u ↔
      a ∈ db ∧ a.userId = u ∧
        (startInstant a < now ∨ a.status = Status.completed) := by
  unfold getPastAppointments
  rw [List.Perm.mem_iff (List.perm_insertionSort _ _)]
  simp only [List.mem_filter, decide_eq_true_eq]
  tauto

lemma mem_getCancelled {now : Nat} {db : List Appt} {u : Nat} {a : Appt} :
    a ∈ getCancelledAppointments now db u ↔
      a ∈ db ∧ a.userId = u ∧ a.status = Status.cancelled := by
  unfold getCancelledAppointments
  rw [List.Perm.mem_iff (List.perm_insertionSort _ _)]
  simp only [List.mem_filter, decide_eq_true_eq]
  tauto

/-- A cancelled appointment whose start instant lies in the past: it is
returned both by `getPastAppointments` and by `getCancelledAppointments`. -/
def pastCancelledAppt : Appt :=
  { id := 1, userId := 1, therapistId := 1, date := 0, time := 500,
    duration := 50, typeName := regularSessionStr,
    status := Status.cancelled, notes := emptyStr, createdAt := 0,
    cancelledAt := none }

/-- C1 counterexample: the claim says every appointment appears in at most
one of the three result lists (with the sole exception of a future-dated
completed appointment, which is classified as past).  A cancelled appointment
with a past start instant appears in both the past list and the cancelled
list, and it is not completed, so the stated exception does not cover it. -/
theorem c1_pastCancelled_in_two_lists :
    pastCancelledAppt ∈ getPastAppointments 1000 [pastCancelledAppt] 1 ∧
    pastCancelledAppt ∈ getCancelledAppointments 1000 [pastCancelledAppt] 1 ∧
    pastCancelledAppt.status ≠ Status.completed := by
  decide

/-- C1 (amended): the three query operations classify a user's appointments
exactly as the claim states (upcoming iff strictly future start and
confirmed; past iff past start or completed; cancelled iff cancelled), the
upcoming list is disjoint from the other two, and the only double
classification is that a cancelled appointment with a past start instant
appears in both the past and the cancelled lists (a future-dated completed
appointment still lands only in the past list). -/
theorem c1_queryPartition :
    ∀ (now : Nat) (db : List Appt) (u : Nat) (a : Appt),
    (a ∈ getUpcomingAppointments now db u ↔
      a ∈ db ∧ a.userId = u ∧ now < startInstant a ∧
        a.status = Status.confirmed) ∧
    (a ∈ getPastAppointments now db u ↔
      a ∈ db ∧ a.userId = u ∧
        (startInstant a < now ∨ a.status = Status.completed)) ∧
    (a ∈ getCancelledAppointments now db u ↔
      a ∈ db ∧ a.userId = u ∧ a.status = Status.cancelled) ∧
    ¬(a ∈ getUpcomingAppointments now db u ∧
      a ∈ getPastAppointments now db u) ∧
    ¬(a ∈ getUpcomingAppointments now db u ∧
      a ∈ getCancelledAppointments now db u) ∧
    (a ∈ getPastAppointments now db u →
      a ∈ getCancelledAppointments now db u →
      a.status = Status.cancelled ∧ startInstant a < now) := by
  intro now db u a
  refine ⟨mem_getUpcoming, mem_getPast, mem_getCancelled, ?_, ?_, ?_⟩
  · rintro ⟨hu, hp⟩
    rw [mem_getUpcoming] at hu
    rw [mem_getPast] at hp
    rcases hp.2.2 with hlt | hc
    · omega
    · rw [hu.2.2.2] at hc
      exact Status.noConfusion hc
  · rintro ⟨hu, hc⟩
    rw [mem_getUpcoming] at hu
    rw [mem_getCancelled] at hc
    rw [hu.2.2.2] at hc
    exact Status.noConfusion hc.2.2
  · intro hp hc
    rw [mem_getPast] at hp
    rw [mem_getCancelled] at hc
    refine ⟨hc.2.2, ?_⟩
    rcases hp.2.2 with hlt | hco
    · exact hlt
    · rw [hc.2.2] at hco
      exact Status.noConfusion hco

/-- C1 witness: the amended theorem applied to the concrete store holding
the single past-dated cancelled appointment. -/
theorem c1_queryPartition_witness :
    pastCancelledAppt.status = Status.cancelled ∧
      startInstant pastCancelledAppt < 1000 :=
  (c1_queryPartition 1000 [pastCancelledAppt] 1
      pastCancelledAppt).2.2.2.2.2 (by decide) (by decide)

/-- A confirmed 09:00–09:50 appointment (540 minutes, 50 long) of user 1,
used for the boundary examples of the interval overlap check. -/
def bookedNineAppt : Appt :=
  { id := 1, userId := 1, therapistId := 2, date := 0, time := 540,
    duration := 50, typeName := regularSessionStr,
    status := Status.confirmed, notes := emptyStr, createdAt := 0,
    cancelledAt := none }

/-- C3: the user-side conflict check reports a conflict iff some
non-cancelled appointment of the user on the date satisfies
`newStart < existingEnd AND newEnd > existingStart` on the half-open
intervals; touching endpoints do not conflict (a new 09:50 slot against an
existing 09:00+50 does not, a new 09:49 slot does), and an internal failure
while fetching the appointments reports a conflict. -/
theorem c3_hasConflict :
    ∀ (db : List Appt) (u date time duration : Nat),
    hasConflictChecked none u date time duration = true ∧
    (hasConflictChecked (some db) u date time duration = true ↔
      ∃ a ∈ db, a.userId = u ∧ a.date = date ∧
        a.status ≠ Status.cancelled ∧
        date * 1440 + time < startInstant a + a.duration ∧
        startInstant a < date * 1440 + time + duration) ∧
    hasConflict [bookedNineAppt] 1 0 589 50 = true ∧
    hasConflict [bookedNineAppt] 1 0 590 50 = false := by
  intro db u date time duration
  refine ⟨rfl, ?_, by decide, by decide⟩
  simp only [hasConflictChecked, hasConflict, getAppointmentsByDate,
    List.any_eq_true, List.mem_filter, decide_eq_true_eq]
  refine exists_congr fun a => ?_
  simp only [and_assoc]

/-- C4: for a known therapist, the availability resolver returns the empty
sequence when `dayOfWeek(date)` is not in the therapist's weekday set;
otherwise it returns exactly the generated 9–17 candidate slots minus those
equal to the time of some non-cancelled appointment of the therapist on that
date, and when every appointment of the therapist on that date is cancelled
it returns the full candidate list. -/
theorem c4_availableSlots :
    ∀ (db : List Appt) (t : Therapist) (date duration : Nat),
    (getDayOfWeek date ∉ t.availability →
      getAvailableSlots db (some t) date duration = []) ∧
    (getDayOfWeek date ∈ t.availability →
      ∀ s, s ∈ getAvailableSlots db (some t) date duration ↔
        (s ∈ generateTimeSlots 9 17 duration ∧
          ¬ ∃ a ∈ db, a.therapistId = t.id ∧ a.date = date ∧
            a.status ≠ Status.cancelled ∧ a.time = s)) ∧
    (getDayOfWeek date ∈ t.availability →
      (∀ a ∈ db, a.therapistId = t.id → a.date = date →
        a.status = Status.cancelled) →
      getAvailableSlots db (some t) date duration =
        generateTimeSlots 9 17 duration) := by
  intro db t date duration
  refine ⟨?_, ?_, ?_⟩
  · intro hnot
    simp only [getAvailableSlots]
    rw [if_pos]
    simp only [Bool.not_eq_true', ← Bool.not_eq_true, List.elem_iff]
    exact hnot
  · intro hmem s
    simp only [getAvailableSlots]
    rw [if_neg (by simp [List.elem_iff, hmem])]
    simp only [List.mem_filter, Bool.not_eq_true', ← Bool.not_eq_true,
      List.elem_iff, List.mem_map, List.mem_filter, decide_eq_true_eq]
    constructor
    · rintro ⟨hs, hno⟩
      refine ⟨hs, ?_⟩
      rintro ⟨a, ha, hth, hdt, hst, htime⟩
      exact hno ⟨a, ⟨⟨ha, hth⟩, hdt, hst⟩, htime⟩
    · rintro ⟨hs, hno⟩
      refine ⟨hs, ?_⟩
      rintro ⟨a, ⟨⟨ha, hth⟩, hdt, hst⟩, htime⟩
      exact hno ⟨a, ha, hth, hdt, hst, htime⟩
  · intro hmem hall
    simp only [getAvailableSlots]
    rw [if_neg (by simp [List.elem_iff, hmem])]
    rw [List.filter_eq_self]
    intro s hs
    simp only [Bool.not_eq_true', ← Bool.not_eq_true, List.elem_iff,
      List.mem_map, List.mem_filter, decide_eq_true_eq]
    rintro ⟨a, ⟨⟨ha, hth⟩, hdt, hst⟩, htime⟩
    exact hst (hall a ha hth hdt)

/-- A Monday-only therapist used as the concrete availability witness. -/
def mondayTherapist : Therapist :=
  { id := 2, availability := [dayNames.getD 1 emptyStr] }

/-- A cancelled appointment of the Monday therapist on day 1 at 09:00. -/
def cancelledMondayAppt : Appt :=
  { id := 1, userId := 1, therapistId := 2, date := 1, time := 540,
    duration := 240, typeName := regularSessionStr,
    status := Status.cancelled, notes := emptyStr, createdAt := 0,
    cancelledAt := some 0 }

/-- C4 witness: on a working day whose only appointment is cancelled, the
resolver returns the full candidate set. -/
theorem c4_availableSlots_witness :
    getAvailableSlots [cancelledMondayAppt] (some mondayTherapist) 1 240 =
      generateTimeSlots 9 17 240 :=
  (c4_availableSlots [cancelledMondayAppt] mondayTherapist 1 240).2.2
    (by decide) (by decide)

lemma generateSlotsFrom_eq (e d : Nat) (hd : 0 < d) :
    ∀ (k c : Nat), e - c ≤ k →
      generateSlotsFrom e d c =
        (List.range ((e - c) / d)).map (fun i => c + i * d) := by
  intro k
  induction k with
  | zero =>
    intro c hc
    rw [generateSlotsFrom, dif_neg (by omega)]
    rw [Nat.div_eq_of_lt (by omega)]
    rfl
  | succ k ih =>
    intro c hc
    rw [generateSlotsFrom]
    by_cases h : c + d ≤ e
    · rw [dif_pos ⟨hd, h⟩, ih (c + d) (by omega)]
      have hdiv : (e - c) / d = (e - (c + d)) / d + 1 := by
        have h2 : d ≤ e - c := by omega
        have h3 : e - c - d = e - (c + d) := by omega
        rw [Nat.div_eq_sub_div hd h2, h3]
      rw [hdiv, List.range_succ_eq_map]
      simp only [List.map_cons, List.map_map, Nat.zero_mul, Nat.add_zero,
        List.cons.injEq, true_and]
      refine List.map_congr_left fun i _ => ?_
      simp only [Function.comp_apply, Nat.succ_eq_add_one]
      ring
    · rw [dif_neg (by omega), Nat.div_eq_of_lt (by omega)]
      rfl

lemma generateTimeSlots_eq (s e d : Nat) (hd : 0 < d) :
    generateTimeSlots s e d =
      (List.range ((e * 60 - s * 60) / d)).map (fun i => s * 60 + i * d) :=
  generateSlotsFrom_eq (e * 60) d hd (e * 60 - s * 60) (s * 60) le_rfl

/-- C5: for a positive duration, `generateTimeSlots` emits exactly the slots
`startHour:00 + i * duration` whose end fits at or before `endHour:00`; over
the 9–17 window it produces `(17-9)*60 / duration` slots (exactly the claimed
count whenever the duration evenly divides the window), and zero slots when
the duration exceeds the window. -/
theorem c5_generateTimeSlots :
    ∀ (s e d : Nat), 0 < d →
    (∀ t, t ∈ generateTimeSlots s e d ↔
      ∃ i, t = s * 60 + i * d ∧ t + d ≤ e * 60) ∧
    (generateTimeSlots 9 17 d).length = 480 / d ∧
    (480 < d → generateTimeSlots 9 17 d = []) := by
  intro s e d hd
  refine ⟨?_, ?_, ?_⟩
  · intro t
    rw [generateTimeSlots_eq s e d hd]
    simp only [List.mem_map, List.mem_range]
    constructor
    · rintro ⟨i, hi, rfl⟩
      refine ⟨i, rfl, ?_⟩
      have h2 : (i + 1) * d ≤ e * 60 - s * 60 :=
        (Nat.le_div_iff_mul_le hd).mp (Nat.succ_le_of_lt hi)
      have h3 : i * d + d = (i + 1) * d := by ring
      omega
    · rintro ⟨i, rfl, hle⟩
      refine ⟨i, ?_, rfl⟩
      have h3 : i * d + d = (i + 1) * d := by ring
      have h2 : (i + 1) * d ≤ e * 60 - s * 60 := by omega
      have h4 := (Nat.le_div_iff_mul_le hd).mpr h2
      omega
  · rw [generateTimeSlots_eq 9 17 d hd]
    simp only [List.length_map, List.length_range]
  · intro h480
    rw [generateTimeSlots_eq 9 17 d hd]
    rw [show (17 * 60 - 9 * 60) / d = 0 from Nat.div_eq_of_lt (by omega)]
    rfl

/-- C5 witness: hourly slots over the 9–17 window. -/
theorem c5_generateTimeSlots_witness :
    0 < 60 ∧ (generateTimeSlots 9 17 60).length = 480 / 60 :=
  ⟨by decide, (c5_generateTimeSlots 9 17 60 (by decide)).2.1⟩

/-- The record written back by a successful cancel: status set to cancelled
and `cancelledAt` stamped. -/
def markCancelled (a : Appt) (now : Nat) : Appt :=
  { a with
    status := Status.cancelled
    cancelledAt := some now }

/-- C7: booking fails with the not-connected reason when the connection check
is negative, fails with the slot-taken reason when some non-cancelled
appointment of the therapist already occupies the exact `(date, time)`, and
otherwise appends a new appointment with status confirmed — so an existing
cancelled appointment at the slot does not block booking. -/
theorem c7_bookAppointment :
    (∀ (db : List Appt) (fid now u : Nat) (ad : ApptData),
      bookAppointment false db fid now u ad =
        ({ success := false, message := notConnectedMsg }, db)) ∧
    (∀ (db : List Appt) (fid now u : Nat) (ad : ApptData),
      (∃ a ∈ db, a.therapistId = ad.therapistId ∧ a.date = ad.date ∧
        a.time = ad.time ∧ a.status ≠ Status.cancelled) →
      bookAppointment true db fid now u ad =
        ({ success := false, message := slotTakenMsg }, db)) ∧
    (∀ (db : List Appt) (fid now u : Nat) (ad : ApptData),
      (∀ a ∈ db, a.therapistId = ad.therapistId → a.date = ad.date →
        a.time = ad.time → a.status = Status.cancelled) →
      ∃ appt : Appt,
        bookAppointment true db fid now u ad =
          ({ success := true, message := bookedMsg }, db ++ [appt]) ∧
        appt.status = Status.confirmed) := by
  refine ⟨fun db fid now u ad => rfl, ?_, ?_⟩
  · rintro db fid now u ad ⟨a, ha, h1, h2, h3, h4⟩
    have hav : isSlotAvailable db ad.therapistId ad.date ad.time = false := by
      simp only [isSlotAvailable, Bool.not_eq_false', List.any_eq_true,
        decide_eq_true_eq]
      exact ⟨a, ha, h1, h2, h3, h4⟩
    simp [bookAppointment, hav]
  · intro db fid now u ad hall
    have hav : isSlotAvailable db ad.therapistId ad.date ad.time = true := by
      simp only [isSlotAvailable, Bool.not_eq_true', List.any_eq_false,
        decide_eq_true_eq]
      rintro a ha ⟨h1, h2, h3, h4⟩
      exact h4 (hall a ha h1 h2 h3)
    refine ⟨{ id := fid
              userId := u
              therapistId := ad.therapistId
              date := ad.date
              time := ad.time
              duration := natOrDefault ad.duration 50
              typeName := strOrDefault ad.typeName regularSessionStr
              status := Status.confirmed
              notes := strOrDefault ad.notes emptyStr
              createdAt := now
              cancelledAt := none }, ?_, rfl⟩
    simp [bookAppointment, hav]

/-- A cancelled appointment occupying the very slot the C7 witness books. -/
def cancelledSameSlotAppt : Appt :=
  { id := 9, userId := 4, therapistId := 2, date := 3, time := 600,
    duration := 50, typeName := regularSessionStr,
    status := Status.cancelled, notes := emptyStr, createdAt := 0,
    cancelledAt := some 1 }

/-- The booking request of the C7 witness, aimed at the cancelled slot. -/
def sameSlotRequest : ApptData :=
  { therapistId := 2, date := 3, time := 600, duration := some 50,
    typeName := none, notes := none }

/-- C7 witness: booking over a store whose only appointment at the slot is
cancelled succeeds. -/
theorem c7_bookAppointment_witness :
    (bookAppointment true [cancelledSameSlotAppt] 5 0 1
      sameSlotRequest).1.success = true := by
  obtain ⟨appt, heq, hst⟩ :=
    c7_bookAppointment.2.2 [cancelledSameSlotAppt] 5 0 1 sameSlotRequest
      (by decide)
  rw [heq]

/-- C8: cancelling an appointment that is already cancelled returns the
already-cancelled failure and leaves the store unchanged; cancelling an
existing non-cancelled appointment succeeds, the store then contains the
appointment with status cancelled and `cancelledAt` stamped, every other
record is preserved, and every record under the cancelled key carries the
cancelled status and the stamp. -/
theorem c8_cancelAppointment :
    (∀ (db : List Appt) (now apptId : Nat) (a : Appt),
      db.find? (fun e => e.id == apptId) = some a →
      a.status = Status.cancelled →
      cancelAppointment db now apptId =
        ({ success := false, message := alreadyCancelledMsg }, db)) ∧
    (∀ (db : List Appt) (now apptId : Nat) (a : Appt),
      db.find? (fun e => e.id == apptId) = some a →
      a.status ≠ Status.cancelled →
      (cancelAppointment db now apptId).1 =
        { success := true, message := cancelOkMsg } ∧
      markCancelled a now ∈ (cancelAppointment db now apptId).2 ∧
      (∀ e ∈ db, e.id ≠ apptId → e ∈ (cancelAppointment db now apptId).2) ∧
      (∀ e ∈ (cancelAppointment db now apptId).2, e.id = apptId →
        e.status = Status.cancelled ∧ e.cancelledAt = some now)) := by
  constructor
  · intro db now apptId a hfind hst
    simp [cancelAppointment, hfind, hst]
  · intro db now apptId a hfind hst
    have hmem : a ∈ db := List.mem_of_find?_eq_some hfind
    have hid : a.id = apptId := by
      have h := List.find?_some hfind
      simpa using h
    have hcond : (a.status == Status.cancelled) = false := by
      simpa using hst
    have hval : cancelAppointment db now apptId =
        ({ success := true, message := cancelOkMsg },
         db.map (fun e => if e.id == a.id then markCancelled a now else e)) := by
      simp [cancelAppointment, hfind, hcond, markCancelled]
    refine ⟨?_, ?_, ?_, ?_⟩
    · rw [hval]
    · rw [hval]
      exact List.mem_map.mpr ⟨a, hmem, by simp⟩
    · intro e he hne
      rw [hval]
      refine List.mem_map.mpr ⟨e, he, ?_⟩
      have hne2 : (e.id == a.id) = false := by
        simp only [beq_eq_false_iff_ne, ne_eq, hid]
        exact hne
      simp [hne2]
    · intro e he heid
      rw [hval] at he
      obtain ⟨x, hx, hxe⟩ := List.mem_map.mp he
      by_cases hxid : x.id = a.id
      · simp only [hxid, beq_self_eq_true, if_true] at hxe
        rw [← hxe]
        exact ⟨rfl, rfl⟩
      · have hx2 : (x.id == a.id) = false := by
          simpa using hxid
        simp only [hx2, Bool.false_eq_true, if_false] at hxe
        rw [← hxe] at heid
        exact absurd (heid.trans hid.symm) hxid

/-- A cancelled appointment under key 9, for the C8 witness. -/
def cancelledNineAppt : Appt :=
  { id := 9, userId := 1, therapistId := 2, date := 4, time := 660,
    duration := 50, typeName := regularSessionStr,
    status := Status.cancelled, notes := emptyStr, createdAt := 0,
    cancelledAt := some 2 }

/-- A confirmed appointment under key 3, for the C8 witness. -/
def confirmedThreeAppt : Appt :=
  { id := 3, userId := 1, therapistId := 2, date := 4, time := 720,
    duration := 50, typeName := regularSessionStr,
    status := Status.confirmed, notes := emptyStr, createdAt := 0,
    cancelledAt := none }

/-- C8 witness: the idempotency guard on a cancelled record, and a successful
cancel on a confirmed record. -/
theorem c8_cancelAppointment_witness :
    cancelAppointment [cancelledNineAppt] 7 9 =
      ({ success := false, message := alreadyCancelledMsg },
        [cancelledNineAppt]) ∧
    (cancelAppointment [confirmedThreeAppt] 7 3).1 =
      { success := true, message := cancelOkMsg } :=
  ⟨c8_cancelAppointment.1 [cancelledNineAppt] 7 9 cancelledNineAppt
      (by decide) (by decide),
   (c8_cancelAppointment.2 [confirmedThreeAppt] 7 3 confirmedThreeAppt
      (by decide) (by decide)).1⟩

/-- C10: when the booking succeeds, a missing (or zero, i.e. falsy) duration
is stored as 50 minutes, a missing type as 'Regular Session', and missing
notes as the empty string. -/
theorem c10_bookDefaults :
    ∀ (db : List Appt) (fid now u : Nat) (ad : ApptData),
    (∀ a ∈ db, a.therapistId = ad.therapistId → a.date = ad.date →
      a.time = ad.time → a.status = Status.cancelled) →
    ∃ appt : Appt,
      bookAppointment true db fid now u ad =
        ({ success := true, message := bookedMsg }, db ++ [appt]) ∧
      ((ad.duration = none ∨ ad.duration = some 0) → appt.duration = 50) ∧
      (ad.typeName = none → appt.typeName = regularSessionStr) ∧
      (ad.notes = none → appt.notes = emptyStr) := by
  intro db fid now u ad hall
  have hav : isSlotAvailable db ad.therapistId ad.date ad.time = true := by
    simp only [isSlotAvailable, Bool.not_eq_true', List.any_eq_false,
      decide_eq_true_eq]
    rintro a ha ⟨h1, h2, h3, h4⟩
    exact h4 (hall a ha h1 h2 h3)
  refine ⟨{ id := fid
            userId := u
            therapistId := ad.therapistId
            date := ad.date
            time := ad.time
            duration := natOrDefault ad.duration 50
            typeName := strOrDefault ad.typeName regularSessionStr
            status := Status.confirmed
            notes := strOrDefault ad.notes emptyStr
            createdAt := now
            cancelledAt := none }, ?_, ?_, ?_, ?_⟩
  · simp [bookAppointment, hav]
  · rintro (h | h) <;> simp [natOrDefault, h]
  · intro h
    simp [strOrDefault, h]
  · intro h
    simp [strOrDefault, h]

/-- A booking request leaving duration, type and notes unset, for the C10
witness. -/
def emptyFieldsRequest : ApptData :=
  { therapistId := 1, date := 0, time := 540, duration := none,
    typeName := none, notes := none }

/-- C10 witness: booking into an empty store with all optional fields unset
stores the defaults. -/
theorem c10_bookDefaults_witness :
    ((bookAppointment true [] 5 0 1 emptyFieldsRequest).2.map
        fun a => a.duration) = [50] ∧
    ((bookAppointment true [] 5 0 1 emptyFieldsRequest).2.map
        fun a => a.typeName) = [regularSessionStr] ∧
    ((bookAppointment true [] 5 0 1 emptyFieldsRequest).2.map
        fun a => a.notes) = [emptyStr] := by
  obtain ⟨appt, heq, hd, ht, hn⟩ :=
    c10_bookDefaults [] 5 0 1 emptyFieldsRequest (by simp)
  rw [heq]
  simp [hd (Or.inl rfl), ht rfl, hn rfl]


/-- The fresh mood record inserted by `logMood` when no entry exists for the
date. -/
def mkMoodEntry (fid u : Nat) (md : MoodData) (stamp : Nat) : MoodEntry :=
  { id := fid, userId := u, mood := md.mood, intensity := md.intensity,
    notes := md.notes, date := md.date, timestamp := stamp }

/-- The overwrite `logMood` performs on an existing entry: mood, intensity,
notes and timestamp are replaced, identity and date are kept. -/
def updatedEntry (e : MoodEntry) (md : MoodData) (stamp : Nat) : MoodEntry :=
  { e with
    mood := md.mood
    intensity := md.intensity
    notes := md.notes
    timestamp := stamp }

/-- C6: `logMood` rejects a mood outside the category set and an intensity
outside [1,10] with a typed failure and no store change; two successive logs
for the same user and date (the first into a store holding no entry for that
date, under a fresh key) leave exactly one stored entry for that date,
holding the second call's mood, intensity, notes and timestamp. -/
theorem c6_logMoodUpsert :
    (∀ (db : List MoodEntry) (fid now u : Nat) (md : MoodData),
      md.mood ∉ moodNames →
      logMood db fid now u md =
        ({ success := false, message := invalidMoodMsg }, db)) ∧
    (∀ (db : List MoodEntry) (fid now u : Nat) (md : MoodData),
      md.mood ∈ moodNames →
      (md.intensity < 1 ∨ 10 < md.intensity) →
      logMood db fid now u md =
        ({ success := false, message := intensityMsg }, db)) ∧
    (∀ (db : List MoodEntry) (fid fid2 now now2 u : Nat) (m1 m2 : MoodData),
      (∀ e ∈ db, e.id ≠ fid) →
      getMoodsByDate db u m1.date = [] →
      m2.date = m1.date →
      m1.mood ≠ m2.mood →
      m1.mood ∈ moodNames →
      m2.mood ∈ moodNames →
      1 ≤ m1.intensity → m1.intensity ≤ 10 →
      1 ≤ m2.intensity → m2.intensity ≤ 10 →
      (logMood db fid now u m1).1.success = true ∧
      (logMood (logMood db fid now u m1).2 fid2 now2 u m2).1.success
        = true ∧
      getMoodsByDate (logMood (logMood db fid now u m1).2 fid2 now2 u m2).2
          u m1.date =
        [{ id := fid, userId := u, mood := m2.mood,
           intensity := m2.intensity, notes := m2.notes, date := m1.date,
           timestamp := now2 }]) := by
  refine ⟨?_, ?_, ?_⟩
  · intro db fid now u md hbad
    simp [logMood, hbad]
  · intro db fid now u md hok hrange
    rcases hrange with h | h
    · have h0 : md.intensity = 0 := by omega
      simp [logMood, hok, h0]
    · simp [logMood, hok, h]
  · intro db fid fid2 now now2 u m1 m2 hfresh hempty hdate hne hc1 hc2
      hi1a hi1b hi2a hi2b
    have hr1 : ¬ (m1.intensity = 0 ∨ 10 < m1.intensity) := by omega
    have hr2 : ¬ (m2.intensity = 0 ∨ 10 < m2.intensity) := by omega
    have h1 : logMood db fid now u m1 =
        ({ success := true, message := moodLoggedMsg },
         db ++ [mkMoodEntry fid u m1 now]) := by
      simp [logMood, hc1, hr1, hempty, mkMoodEntry]
    have hg : getMoodsByDate (db ++ [mkMoodEntry fid u m1 now]) u m2.date =
        [mkMoodEntry fid u m1 now] := by
      rw [hdate]
      unfold getMoodsByDate at hempty ⊢
      rw [List.filter_append, hempty]
      simp [mkMoodEntry]
    have h2 : logMood (db ++ [mkMoodEntry fid u m1 now]) fid2 now2 u m2 =
        ({ success := true, message := moodUpdatedMsg },
         (db ++ [mkMoodEntry fid u m1 now]).map
           (fun e => if e.id == fid then
              updatedEntry (mkMoodEntry fid u m1 now) m2 now2 else e)) := by
      simp only [logMood]
      rw [hg]
      simp [hc2, hr2, updatedEntry, mkMoodEntry]
    have hmap : (db ++ [mkMoodEntry fid u m1 now]).map
           (fun e => if e.id == fid then
              updatedEntry (mkMoodEntry fid u m1 now) m2 now2 else e) =
        db ++ [updatedEntry (mkMoodEntry fid u m1 now) m2 now2] := by
      rw [List.map_append]
      refine congrArg₂ (· ++ ·) ?_ (by simp [mkMoodEntry])
      refine map_id_of_mem db _ fun e he => ?_
      have hne2 : (e.id == fid) = false := by
        simpa using hfresh e he
      simp [hne2]
    have hfin : updatedEntry (mkMoodEntry fid u m1 now) m2 now2 =
        { id := fid, userId := u, mood := m2.mood,
          intensity := m2.intensity, notes := m2.notes, date := m1.date,
          timestamp := now2 } := by
      simp [updatedEntry, mkMoodEntry]
    refine ⟨by rw [h1], by rw [h1, h2], ?_⟩
    rw [h1, h2, hmap, hfin]
    unfold getMoodsByDate at hempty ⊢
    rw [List.filter_append, hempty]
    simp

/-- First C6 witness request: Happy, intensity 5, day 3. -/
def happyRequest : MoodData :=
  { mood := "Happy", intensity := 5, notes := emptyStr, date := 3 }

/-- Second C6 witness request: Sad, intensity 7, same day 3. -/
def sadRequest : MoodData :=
  { mood := "Sad", intensity := 7, notes := emptyStr, date := 3 }

/-- C6 witness: logging Happy then Sad for the same user and date leaves a
single stored entry for the date, holding the second call's values. -/
theorem c6_logMoodUpsert_witness :
    getMoodsByDate
        (logMood (logMood [] 0 11 1 happyRequest).2 1 12 1 sadRequest).2 1
        happyRequest.date =
      [{ id := 0, userId := 1, mood := sadRequest.mood,
         intensity := sadRequest.intensity, notes := sadRequest.notes,
         date := happyRequest.date, timestamp := 12 }] :=
  (c6_logMoodUpsert.2.2 [] 0 1 11 12 1 happyRequest sadRequest
    (by simp) (by decide) (by decide) (by decide) (by decide) (by decide)
    (by decide) (by decide) (by decide) (by decide)).2.2

lemma streakLoop_spec (today : Nat) :
    ∀ (ds : List Nat) (s : Nat),
      List.Pairwise (fun a b => b < a) ds →
      (∀ d ∈ ds, d + s ≤ today) →
      s ≤ streakLoop today ds s ∧
      (∀ j, s ≤ j → j < streakLoop today ds s →
        ∃ d ∈ ds, d + j = today) ∧
      ¬ ∃ d ∈ ds, d + streakLoop today ds s = today := by
  intro ds
  induction ds with
  | nil =>
    intro s _ _
    refine ⟨le_refl s, ?_, ?_⟩
    · intro j hs hj
      simp only [streakLoop] at hj
      omega
    · rintro ⟨d, hd, _⟩
      exact absurd hd (List.not_mem_nil d)
  | cons d ds ih =>
    intro s hpair hle
    have hhead := (List.pairwise_cons.mp hpair).1
    have htail := (List.pairwise_cons.mp hpair).2
    simp only [streakLoop]
    by_cases hcond : (today : Int) - (d : Int) = (s : Int)
    · rw [if_pos hcond]
      have hds : d + s = today := by omega
      have hle2 : ∀ x ∈ ds, x + (s + 1) ≤ today := by
        intro x hx
        have := hhead x hx
        omega
      obtain ⟨ih1, ih2, ih3⟩ := ih (s + 1) htail hle2
      refine ⟨by omega, ?_, ?_⟩
      · intro j hsj hjr
        by_cases hjs : j = s
        · exact ⟨d, by simp, by omega⟩
        · obtain ⟨x, hx, hxe⟩ := ih2 j (by omega) hjr
          exact ⟨x, by simp [hx], hxe⟩
      · rintro ⟨x, hx, hxe⟩
        rcases List.mem_cons.mp hx with rfl | hx2
        · omega
        · exact ih3 ⟨x, hx2, hxe⟩
    · rw [if_neg hcond]
      refine ⟨le_refl s, ?_, ?_⟩
      · intro j h1 h2
        omega
      · rintro ⟨x, hx, hxe⟩
        rcases List.mem_cons.mp hx with rfl | hx2
        · omega
        · have h1 := hhead x hx2
          have h2 := hle d (by simp)
          omega

/-- Mood entries for today (day 10), yesterday (day 9) and three days ago
(day 7): a gap at day 8. -/
def streakExample : List MoodEntry :=
  [{ id := 1, userId := 1, date := 10, mood := "Happy", intensity := 5,
     notes := emptyStr, timestamp := 30 },
   { id := 2, userId := 1, date := 9, mood := "Calm", intensity := 6,
     notes := emptyStr, timestamp := 20 },
   { id := 3, userId := 1, date := 7, mood := "Sad", intensity := 3,
     notes := emptyStr, timestamp := 10 }]

/-- C9: when no entry is future-dated, the streak computed by walking the
unique dates (sorted descending) backward from today counts exactly the
consecutive daily matches starting at today: every offset below the streak
has an entry, and the streak's own offset has none — so a gap breaks the
count immediately and a missing entry for today yields 0; entries on today,
yesterday and three days ago yield a streak of 2. -/
theorem c9_calculateStreak :
    (∀ (today : Nat) (moods : List MoodEntry),
      (∀ m ∈ moods, m.date ≤ today) →
      (∀ j, j < calculateStreak today moods →
        ∃ m ∈ moods, m.date + j = today) ∧
      ¬ ∃ m ∈ moods, m.date + calculateStreak today moods = today) ∧
    calculateStreak 10 streakExample = 2 := by
  constructor
  · intro today moods hle
    by_cases hnil : moods.length = 0
    · have hm : moods = [] := List.length_eq_zero.mp hnil
      subst hm
      constructor
      · intro j hj
        simp [calculateStreak] at hj
      · rintro ⟨m, hm, _⟩
        exact absurd hm (List.not_mem_nil m)
    · haveI : IsTotal Nat (fun a b => b ≤ a) := ⟨fun a b => le_total b a⟩
      haveI : IsTrans Nat (fun a b => b ≤ a) :=
        ⟨fun a b c hab hbc => le_trans hbc hab⟩
      have hcs : calculateStreak today moods =
          streakLoop today
            (((moods.map (fun m => m.date)).dedup).insertionSort
              (fun a b => b ≤ a)) 0 := by
        simp [calculateStreak, hnil]
      set ds := ((moods.map (fun m => m.date)).dedup).insertionSort
        (fun a b => b ≤ a) with hds
      have hsort : List.Pairwise (fun a b : Nat => b ≤ a) ds :=
        List.sorted_insertionSort _ _
      have hnodup : ds.Nodup :=
        (List.perm_insertionSort (fun a b => b ≤ a) _).nodup_iff.mpr
          (List.nodup_dedup _)
      have hpair : List.Pairwise (fun a b : Nat => b < a) ds :=
        (hsort.and hnodup).imp
          (fun h => lt_of_le_of_ne h.1 (Ne.symm h.2))
      have hmemiff : ∀ x, x ∈ ds ↔ ∃ m ∈ moods, m.date = x := by
        intro x
        rw [hds, List.Perm.mem_iff (List.perm_insertionSort _ _),
          List.mem_dedup, List.mem_map]
      have h0 : ∀ d ∈ ds, d + 0 ≤ today := by
        intro d hd
        obtain ⟨m, hm, rfl⟩ := (hmemiff d).mp hd
        have := hle m hm
        omega
      obtain ⟨_, h2, h3⟩ := streakLoop_spec today ds 0 hpair h0
      rw [hcs]
      constructor
      · intro j hj
        obtain ⟨dd, hdd, hde⟩ := h2 j (Nat.zero_le j) hj
        obtain ⟨m, hm, rfl⟩ := (hmemiff dd).mp hdd
        exact ⟨m, hm, hde⟩
      · rintro ⟨m, hm, hme⟩
        exact h3 ⟨m.date, (hmemiff m.date).mpr ⟨m, hm, rfl⟩, hme⟩
  · decide

/-- C9 witness: on the concrete three-entry history the walk stops at the
gap — no entry sits at offset `streak` below today. -/
theorem c9_calculateStreak_witness :
    ¬ ∃ m ∈ streakExample, m.date + calculateStreak 10 streakExample = 10 :=
  (c9_calculateStreak.1 10 streakExample (by decide)).2

/-- The mean intensity rounded to one decimal (the value of the source's
`toFixed(1)` string read back as a number), as a rational. -/
def roundedTenthMean (moods : List MoodEntry) : ℚ :=
  ((round ((10 : ℚ) * meanQ moods) : ℤ) : ℚ) / 10

lemma calculateAverage10_eq_round (moods : List MoodEntry)
    (h : moods ≠ []) :
    (calculateAverage10 moods : ℤ) = round ((10 : ℚ) * meanQ moods) := by
  have hn : moods.length ≠ 0 := by
    simpa [List.length_eq_zero] using h
  have hnq : ((moods.length : ℚ)) ≠ 0 := Nat.cast_ne_zero.mpr hn
  rw [round_eq]
  have hq : (10 : ℚ) * meanQ moods + 1 / 2 =
      ((20 * (moods.map (fun m => m.intensity)).sum + moods.length : ℕ) : ℚ)
        / ((2 * moods.length : ℕ) : ℚ) := by
    unfold meanQ
    set S := (moods.map (fun m => m.intensity)).sum with hS
    set n := moods.length with hN
    push_cast
    field_simp
    rw [hS]
    push_cast
    simp only [List.map_map, Function.comp_def]
    ring
  rw [hq]
  rw [← Int.natCast_floor_eq_floor (by positivity)]
  rw [Nat.floor_div_eq_div]
  simp [calculateAverage10, hn]

lemma getMoodTrend_cases (moods : List MoodEntry)
    (h7 : 7 < moods.length) :
    getMoodTrend moods =
      (if 5 < (calculateAverage10 (recentWindow moods) : ℤ) -
            (calculateAverage10 (olderWindow moods) : ℤ) then improvingStr
       else if (calculateAverage10 (recentWindow moods) : ℤ) -
            (calculateAverage10 (olderWindow moods) : ℤ) < -5 then
         decliningStr
       else stableStr) := by
  have holder : (olderWindow moods).length ≠ 0 := by
    simp only [olderWindow, List.length_take, List.length_drop]
    omega
  unfold getMoodTrend
  rw [if_neg (by omega)]
  rw [if_neg (by simpa using holder)]

lemma recentWindow_ne_nil (moods : List MoodEntry)
    (h7 : 7 < moods.length) : recentWindow moods ≠ [] := by
  intro hc
  have := congrArg List.length hc
  simp only [recentWindow, List.length_drop, List.length_nil] at this
  omega

lemma olderWindow_ne_nil (moods : List MoodEntry)
    (h7 : 7 < moods.length) : olderWindow moods ≠ [] := by
  intro hc
  have := congrArg List.length hc
  simp only [olderWindow, List.length_take, List.length_drop,
    List.length_nil] at this
  omega

/-- Fourteen chronologically ordered entries: the earlier seven sum to 32
(mean 32/7 ≈ 4.571, `toFixed(1)` = 4.6), the later seven to 36 (mean
36/7 ≈ 5.143, `toFixed(1)` = 5.1). -/
def trendCexample : List MoodEntry :=
  [{ id := 1, userId := 1, date := 1, mood := "Sad", intensity := 5,
     notes := emptyStr, timestamp := 1 },
   { id := 2, userId := 1, date := 2, mood := "Sad", intensity := 5,
     notes := emptyStr, timestamp := 2 },
   { id := 3, userId := 1, date := 3, mood := "Sad", intensity := 5,
     notes := emptyStr, timestamp := 3 },
   { id := 4, userId := 1, date := 4, mood := "Sad", intensity := 5,
     notes := emptyStr, timestamp := 4 },
   { id := 5, userId := 1, date := 5, mood := "Sad", intensity := 4,
     notes := emptyStr, timestamp := 5 },
   { id := 6, userId := 1, date := 6, mood := "Sad", intensity := 4,
     notes := emptyStr, timestamp := 6 },
   { id := 7, userId := 1, date := 7, mood := "Sad", intensity := 4,
     notes := emptyStr, timestamp := 7 },
   { id := 8, userId := 1, date := 8, mood := "Calm", intensity := 6,
     notes := emptyStr, timestamp := 8 },
   { id := 9, userId := 1, date := 9, mood := "Calm", intensity := 5,
     notes := emptyStr, timestamp := 9 },
   { id := 10, userId := 1, date := 10, mood := "Calm", intensity := 5,
     notes := emptyStr, timestamp := 10 },
   { id := 11, userId := 1, date := 11, mood := "Calm", intensity := 5,
     notes := emptyStr, timestamp := 11 },
   { id := 12, userId := 1, date := 12, mood := "Calm", intensity := 5,
     notes := emptyStr, timestamp := 12 },
   { id := 13, userId := 1, date := 13, mood := "Calm", intensity := 5,
     notes := emptyStr, timestamp := 13 },
   { id := 14, userId := 1, date := 14, mood := "Calm", intensity := 5,
     notes := emptyStr, timestamp := 14 }]

/-- C2 counterexample: the claim says the trend compares the (exact) mean of
the most recent seven entries with the mean of the preceding seven and
returns 'improving' when the difference exceeds 0.5.  Here the exact mean
difference is 4/7 > 1/2, yet the code returns 'stable', because it compares
the means only after rounding each to one decimal (`toFixed(1)`):
5.1 - 4.6 = 0.5 is not > 0.5. -/
theorem c2_trend_counterexample :
    getMoodTrend trendCexample = stableStr ∧
    meanQ (recentWindow trendCexample) -
      meanQ (olderWindow trendCexample) > 1 / 2 := by
  constructor
  · decide
  · have hr : recentWindow trendCexample =
        trendCexample.drop 7 := by decide
    have ho : olderWindow trendCexample =
        trendCexample.take 7 := by decide
    rw [hr, ho]
    norm_num [meanQ, trendCexample]

/-- Fourteen chronologically ordered entries: seven at intensity 4 followed
by seven at intensity 8. -/
def trendGoodExample : List MoodEntry :=
  [{ id := 1, userId := 1, date := 1, mood := "Sad", intensity := 4,
     notes := emptyStr, timestamp := 1 },
   { id := 2, userId := 1, date := 2, mood := "Sad", intensity := 4,
     notes := emptyStr, timestamp := 2 },
   { id := 3, userId := 1, date := 3, mood := "Sad", intensity := 4,
     notes := emptyStr, timestamp := 3 },
   { id := 4, userId := 1, date := 4, mood := "Sad", intensity := 4,
     notes := emptyStr, timestamp := 4 },
   { id := 5, userId := 1, date := 5, mood := "Sad", intensity := 4,
     notes := emptyStr, timestamp := 5 },
   { id := 6, userId := 1, date := 6, mood := "Sad", intensity := 4,
     notes := emptyStr, timestamp := 6 },
   { id := 7, userId := 1, date := 7, mood := "Sad", intensity := 4,
     notes := emptyStr, timestamp := 7 },
   { id := 8, userId := 1, date := 8, mood := "Happy", intensity := 8,
     notes := emptyStr, timestamp := 8 },
   { id := 9, userId := 1, date := 9, mood := "Happy", intensity := 8,
     notes := emptyStr, timestamp := 9 },
   { id := 10, userId := 1, date := 10, mood := "Happy", intensity := 8,
     notes := emptyStr, timestamp := 10 },
   { id := 11, userId := 1, date := 11, mood := "Happy", intensity := 8,
     notes := emptyStr, timestamp := 11 },
   { id := 12, userId := 1, date := 12, mood := "Happy", intensity := 8,
     notes := emptyStr, timestamp := 12 },
   { id := 13, userId := 1, date := 13, mood := "Happy", intensity := 8,
     notes := emptyStr, timestamp := 13 },
   { id := 14, userId := 1, date := 14, mood := "Happy", intensity := 8,
     notes := emptyStr, timestamp := 14 }]

/-- C2 (amended): trend classification is stable for up to seven entries
(fewer than two entries, or an empty preceding window); with more than seven
entries it compares the means of the two windows each rounded to one decimal
(the source's `toFixed(1)`), returning improving iff the rounded difference
exceeds 0.5, declining iff it is below -0.5, and stable otherwise; seven
entries at intensity 8 chronologically following seven at intensity 4 yield
improving. -/
theorem c2_trend :
    (∀ moods : List MoodEntry, moods.length ≤ 7 →
      getMoodTrend moods = stableStr) ∧
    (∀ moods : List MoodEntry, 7 < moods.length →
      ((getMoodTrend moods = improvingStr ↔
        roundedTenthMean (recentWindow moods) -
          roundedTenthMean (olderWindow moods) > 1 / 2) ∧
       (getMoodTrend moods = decliningStr ↔
        roundedTenthMean (recentWindow moods) -
          roundedTenthMean (olderWindow moods) < -(1 / 2)) ∧
       (getMoodTrend moods = stableStr ↔
        (¬ (roundedTenthMean (recentWindow moods) -
            roundedTenthMean (olderWindow moods) > 1 / 2) ∧
         ¬ (roundedTenthMean (recentWindow moods) -
            roundedTenthMean (olderWindow moods) < -(1 / 2)))))) ∧
    getMoodTrend trendGoodExample = improvingStr := by
  refine ⟨?_, ?_, by decide⟩
  · intro moods hlen
    unfold getMoodTrend
    by_cases h2 : moods.length < 2
    · rw [if_pos h2]
    · rw [if_neg h2]
      have holder : (olderWindow moods).length = 0 := by
        simp only [olderWindow, List.length_take, List.length_drop]
        omega
      rw [if_pos (by simpa using holder)]
  · intro moods h7
    have hrne := recentWindow_ne_nil moods h7
    have hone := olderWindow_ne_nil moods h7
    have hA := calculateAverage10_eq_round _ hrne
    have hB := calculateAverage10_eq_round _ hone
    set A := calculateAverage10 (recentWindow moods) with hsetA
    set B := calculateAverage10 (olderWindow moods) with hsetB
    have hbr : roundedTenthMean (recentWindow moods) = ((A : ℤ) : ℚ) / 10 :=
      by rw [roundedTenthMean, ← hA]
    have hbo : roundedTenthMean (olderWindow moods) = ((B : ℤ) : ℚ) / 10 :=
      by rw [roundedTenthMean, ← hB]
    have hgt : (roundedTenthMean (recentWindow moods) -
        roundedTenthMean (olderWindow moods) > 1 / 2) ↔
        (5 : ℤ) < (A : ℤ) - (B : ℤ) := by
      rw [hbr, hbo, div_sub_div_same, gt_iff_lt,
        lt_div_iff (by norm_num : (0 : ℚ) < 10)]
      norm_num
      constructor
      · intro hh
        exact_mod_cast hh
      · intro hh
        exact_mod_cast hh
    have hlt : (roundedTenthMean (recentWindow moods) -
        roundedTenthMean (olderWindow moods) < -(1 / 2)) ↔
        (A : ℤ) - (B : ℤ) < -5 := by
      rw [hbr, hbo, div_sub_div_same,
        div_lt_iff (by norm_num : (0 : ℚ) < 10)]
      norm_num
      constructor
      · intro hh
        exact_mod_cast hh
      · intro hh
        exact_mod_cast hh
    rw [getMoodTrend_cases moods h7, ← hsetA, ← hsetB]
    by_cases h5 : (5 : ℤ) < (A : ℤ) - (B : ℤ)
    · rw [if_pos h5]
      refine ⟨⟨fun _ => hgt.mpr h5, fun _ => rfl⟩, ?_, ?_⟩
      · constructor
        · intro hc
          exact absurd hc (by decide)
        · intro hc
          exact absurd (hlt.mp hc) (by omega)
      · constructor
        · intro hc
          exact absurd hc (by decide)
        · rintro ⟨hc1, _⟩
          exact absurd (hgt.mpr h5) hc1
    · rw [if_neg h5]
      by_cases hm5 : (A : ℤ) - (B : ℤ) < -5
      · rw [if_pos hm5]
        refine ⟨?_, ⟨fun _ => hlt.mpr hm5, fun _ => rfl⟩, ?_⟩
        · constructor
          · intro hc
            exact absurd hc (by decide)
          · intro hc
            exact absurd (hgt.mp hc) h5
        · constructor
          · intro hc
            exact absurd hc (by decide)
          · rintro ⟨_, hc2⟩
            exact absurd (hlt.mpr hm5) hc2
      · rw [if_neg hm5]
        refine ⟨?_, ?_, ?_⟩
        · constructor
          · intro hc
            exact absurd hc (by decide)
          · intro hc
            exact absurd (hgt.mp hc) h5
        · constructor
          · intro hc
            exact absurd hc (by decide)
          · intro hc
            exact absurd (hlt.mp hc) hm5
        · exact ⟨fun _ => ⟨fun hc => h5 (hgt.mp hc),
            fun hc => hm5 (hlt.mp hc)⟩, fun _ => rfl⟩

/-- C2 witness: the amended theorem applied to an empty history and to the
4-then-8 history. -/
theorem c2_trend_witness :
    getMoodTrend [] = stableStr ∧
    (getMoodTrend trendGoodExample = improvingStr ↔
      roundedTenthMean (recentWindow trendGoodExample) -
        roundedTenthMean (olderWindow trendGoodExample) > 1 / 2) :=
  ⟨c2_trend.1 [] (by decide), (c2_trend.2.1 trendGoodExample (by decide)).1⟩
